import Mathlib

/-!
Verification development for the AttestationSubsidy contract
(`protocol/contracts/identity/AttestationSubsidy.sol`) and the
phone-number-privacy input-validation helpers
(`packages/phone-number-privacy/common/src/utils/input-validation.ts`)
of the celo-monorepo.

The Solidity contract is embedded as a pure state-transition function:
storage is a `ContractState`, external collaborators (Attestations,
the stable token, the beneficiary meta-wallet) are an `Env` record that
fixes the values they return and whether each downstream call reverts,
and a call returns `Except SubsidyError (finalState, events)` together
with the list of downstream calls it performed.  A revert (`require`
failure or a bubbled downstream revert) rolls back all storage writes,
so on an error the caller observes the pre-call state.  uint256
arithmetic is `Nat` with an explicit `% 2^256` wherever Solidity 0.5
wraps.
-/

namespace AttestationSubsidy

/-- EVM word modulus: uint256 values live below this bound. -/
def UINT256_MOD : Nat := 2 ^ 256

abbrev Address := Nat

/-- Revert reasons grouped under the spec's error taxonomy.
`Unauthorized` = `onlyOwner` failing, `ReentrantCall` = the reentrancy
guard, `MalformedRequest` = a signature-array length `require`,
`LimitExceeded` = the `attestationsRequested < maxSubsidisedAttestations`
`require`, `FeeOverflow` = SafeMath multiplication overflow,
`SignatureRejected` = a meta-transaction reverting in the wallet,
`TransferFailed` = the cUSD transfer reverting,
`InvariantViolation` = the post-condition `require`,
`InvalidLimit` = the `maxSubsidisedAttestations > 0` `require`. -/
inductive SubsidyError
  | Unauthorized
  | ReentrantCall
  | MalformedRequest
  | LimitExceeded
  | FeeOverflow
  | SignatureRejected
  | TransferFailed
  | InvariantViolation
  | InvalidLimit
  deriving DecidableEq, Repr

/-- Contract storage: `Ownable`'s owner slot, `UsingRegistry`'s registry
address, the `maxSubsidisedAttestations` limit, and the reentrancy
guard's lock bit (Modelled from the spec for the missing
`common/libraries/ReentrancyGuard.sol`: a binary lock that is held for
the lifetime of one orchestration call). -/
structure ContractState where
  owner : Address
  registry : Address
  maxSubsidisedAttestations : Nat
  locked : Bool
  deriving DecidableEq, Repr

/-- Events the contract can emit. -/
inductive Event
  | AttestationSubsidised (account : Address) (value : Nat)
  | MaxSubsidisedAttestationsSet (value : Nat)
  deriving DecidableEq, Repr

/-- Downstream external calls the orchestration performs, in order:
`getAttestationStats` reads (before/after), the
`getAttestationRequestFee` read inside `calculateTotalFee`, the
meta-tx `approve`, the cUSD `transfer`, and the meta-tx attestation
`request`. -/
inductive Call
  | readStats
  | readFee
  | metaApprove (fee : Nat)
  | transferCUSD (wallet : Address) (fee : Nat)
  | metaRequest (identifier : Nat) (units : Nat)
  deriving DecidableEq, Repr

/-- The arguments of `requestAttestationsWithSubsidy`.  Signature
component values are opaque words; only the array lengths are inspected
by the contract itself. -/
structure Request where
  beneficiaryMetaWallet : Address
  identifier : Nat
  attestationsRequested : Nat
  v : List Nat
  r : List Nat
  s : List Nat
  deriving Repr

/-- Behaviour of the external collaborators during one call:
the fee `Attestations.getAttestationRequestFee` returns, the attestation
request counts `getAttestationStats` returns before and after the chain,
and whether each downstream mutating call reverts. -/
structure Env where
  attestationRequestFee : Nat
  requestsBefore : Nat
  requestsAfter : Nat
  approveReverts : Bool
  transferReverts : Bool
  requestReverts : Bool
  deriving Repr

/-- OpenZeppelin `SafeMath.mul` for uint256: `if (a == 0) return 0;
c = a * b; require(c / a == b)`, where `a * b` wraps modulo 2^256. -/
def safeMul (a b : Nat) : Except SubsidyError Nat :=
  if a = 0 then .ok 0
  else
    let c := (a * b) % UINT256_MOD
    if c / a = b then .ok c else .error .FeeOverflow

/-- The fee computation `calculateTotalFee`: multiplies the per-attestation fee obtained
from the Attestations contract by `attestationsRequested` with
`SafeMath.mul`. -/
def calculateTotalFee (env : Env) (attestationsRequested : Nat) :
    Except SubsidyError Nat :=
  safeMul env.attestationRequestFee attestationsRequested

/-- The inline limit test of `requestAttestationsWithSubsidy`
(the spec's `SubsidyPolicy.checkWithinLimit`):
`attestationsRequested < maxSubsidisedAttestations`. -/
def checkWithinLimit (st : ContractState) (requestedUnits : Nat) : Bool :=
  requestedUnits < st.maxSubsidisedAttestations

/-- The internal chain `_requestAttestationsWithSubsidy`: computes the total fee, then runs
the three downstream steps (meta-tx `approve`, cUSD `transfer`, meta-tx
attestation `request`).  Returns the downstream-call trace together with
either the total fee or the error of the first step that reverts. -/
def internalChain (env : Env) (req : Request) :
    List Call × Except SubsidyError Nat :=
  match calculateTotalFee env req.attestationsRequested with
  | .error e => ([Call.readFee], .error e)
  | .ok totalFee =>
    if env.approveReverts then
      ([Call.readFee, Call.metaApprove totalFee], .error .SignatureRejected)
    else if env.transferReverts then
      ([Call.readFee, Call.metaApprove totalFee,
        Call.transferCUSD req.beneficiaryMetaWallet totalFee],
       .error .TransferFailed)
    else if env.requestReverts then
      ([Call.readFee, Call.metaApprove totalFee,
        Call.transferCUSD req.beneficiaryMetaWallet totalFee,
        Call.metaRequest req.identifier req.attestationsRequested],
       .error .SignatureRejected)
    else
      ([Call.readFee, Call.metaApprove totalFee,
        Call.transferCUSD req.beneficiaryMetaWallet totalFee,
        Call.metaRequest req.identifier req.attestationsRequested],
       .ok totalFee)

/-- The external entry point `requestAttestationsWithSubsidy`.
Modifier order is Solidity's left-to-right: `onlyOwner` first, then
`nonReentrant`, then the body's `require`s (three signature-array
lengths, then the limit).  The body reads the attestation-request count,
runs the internal chain, reads the count again, `require`s that it
advanced by exactly `attestationsRequested` (uint256 addition, so the
sum wraps modulo 2^256), and emits `AttestationSubsidised`.  A revert
rolls the storage back to `st`; on success the guard's lock bit is
cleared. -/
def requestAttestationsWithSubsidy (st : ContractState) (sender : Address)
    (req : Request) (env : Env) :
    Except SubsidyError (ContractState × List Event) × List Call :=
  if sender ≠ st.owner then (.error .Unauthorized, [])
  else if st.locked then (.error .ReentrantCall, [])
  else if ¬ (req.v.length = 2) then (.error .MalformedRequest, [])
  else if ¬ (req.r.length = 2) then (.error .MalformedRequest, [])
  else if ¬ (req.s.length = 2) then (.error .MalformedRequest, [])
  else if ¬ (checkWithinLimit st req.attestationsRequested) then
    (.error .LimitExceeded, [])
  else
    match internalChain env req with
    | (chainTrace, .error e) => (.error e, Call.readStats :: chainTrace)
    | (chainTrace, .ok totalFee) =>
      let trace := Call.readStats :: chainTrace ++ [Call.readStats]
      if (env.requestsBefore + req.attestationsRequested) % UINT256_MOD
          = env.requestsAfter then
        (.ok ({ st with locked := false },
              [Event.AttestationSubsidised req.beneficiaryMetaWallet totalFee]),
         trace)
      else
        (.error .InvariantViolation, trace)

/-- The setter `setMaxSubsidisedAttestations`: `onlyOwner`, `require`s the new
limit positive, stores it and emits `MaxSubsidisedAttestationsSet`. -/
def setMaxSubsidisedAttestations (st : ContractState) (sender : Address)
    (newLimit : Nat) :
    Except SubsidyError (ContractState × List Event) :=
  if sender ≠ st.owner then .error .Unauthorized
  else if ¬ (0 < newLimit) then .error .InvalidLimit
  else .ok ({ st with maxSubsidisedAttestations := newLimit },
            [Event.MaxSubsidisedAttestationsSet newLimit])

/-- The contract's `initialize` function (renamed here because the name
is reserved in Lean): transfers ownership to the caller, records the
registry address, and sets the limit through
`setMaxSubsidisedAttestations` (which the fresh owner passes).  Storage
starts zeroed, so the limit `require` rejects a zero initial limit. -/
def initContract (sender registryAddress : Address) (maxSub : Nat) :
    Except SubsidyError ContractState :=
  let st0 : ContractState :=
    { owner := sender, registry := registryAddress,
      maxSubsidisedAttestations := 0, locked := false }
  match setMaxSubsidisedAttestations st0 sender maxSub with
  | .ok (st, _) => .ok st
  | .error e => .error e

/-- The storage a caller observes after a call: the returned state on
success, the untouched pre-call state on a revert. -/
def finalState (st : ContractState)
    (res : Except SubsidyError (ContractState × List Event)) :
    ContractState :=
  match res with
  | .ok (st', _) => st'
  | .error _ => st

/-- States reachable from a successful `initialize` by successful
`setMaxSubsidisedAttestations` calls and arbitrary
`requestAttestationsWithSubsidy` calls (successful or reverted). -/
inductive Reachable : ContractState → Prop
  | init (sender registryAddress : Address) (maxSub : Nat)
      (st : ContractState) :
      initContract sender registryAddress maxSub = .ok st → Reachable st
  | setLimit (st st' : ContractState) (sender : Address) (newLimit : Nat)
      (evs : List Event) :
      Reachable st →
      setMaxSubsidisedAttestations st sender newLimit = .ok (st', evs) →
      Reachable st'
  | orchestrate (st : ContractState) (sender : Address) (req : Request)
      (env : Env) :
      Reachable st →
      Reachable (finalState st (requestAttestationsWithSubsidy st sender req env).1)

end AttestationSubsidy

namespace InputValidation

/-- A JavaScript value as far as the validation predicates inspect one:
a number (JS timestamps are integers), a string, or a boolean. -/
inductive JSVal
  | num (n : Int)
  | str (s : String)
  | boolean (b : Bool)
  deriving DecidableEq, Repr

/-- JavaScript truthiness of a present value: `0`, `""` and `false`
are falsy. -/
def truthy : JSVal → Bool
  | .num n => n ≠ 0
  | .str s => ¬ s.data.isEmpty
  | .boolean b => b

/-- Modelled from the spec: the missing `./constants` module's
`REQUEST_EXPIRY_WINDOW_MS`, the "fixed expiry window" for request
timestamps, in milliseconds. -/
def REQUEST_EXPIRY_WINDOW_MS : Int := 5 * 60 * 1000

/-- A request body as seen by `hasValidTimestamp`: only the (possibly
absent) `timestamp` field matters. -/
structure TimestampBody where
  timestamp : Option JSVal
  deriving Repr

/-- The predicate `hasValidTimestamp(requestBody)` at the moment `Date.now() = now`:
`!requestBody.timestamp || (typeof requestBody.timestamp === 'number'
&& requestBody.timestamp > Date.now() - REQUEST_EXPIRY_WINDOW_MS)`.
An absent or falsy `timestamp` short-circuits to `true`; a truthy one
must be a number above `now - REQUEST_EXPIRY_WINDOW_MS`. -/
def hasValidTimestamp (body : TimestampBody) (now : Int) : Bool :=
  match body.timestamp with
  | none => true
  | some v =>
    if truthy v = false then true
    else
      match v with
      | .num n => decide (n > now - REQUEST_EXPIRY_WINDOW_MS)
      | _ => false

/-- Modelled from the spec: the missing `@celo/utils/lib/address`
helper `trimLeading0x`, which strips one leading `"0x"` prefix if
present and otherwise returns the string unchanged (stated here by
matching on the character list, the executable form of
`input.startsWith('0x') ? input.slice(2) : input`). -/
def trimLeading0x (input : String) : String :=
  match input.data with
  | '0' :: 'x' :: rest => ⟨rest⟩
  | _ => input

/-- Node's `Buffer.byteLength(string, 'hex')`: the hex byte length is
`string.length >>> 1`, i.e. the floor of half the character count, with
no validation of the characters. -/
def bufferByteLengthHex (s : String) : Nat := s.length / 2

/-- The predicate `isByte32(hashedData)`:
`Buffer.byteLength(trimLeading0x(hashedData), 'hex') === 32`. -/
def isByte32 (hashedData : String) : Bool :=
  bufferByteLengthHex (trimLeading0x hashedData) = 32

/-- A request body as seen by the phone-number-hash predicates: only the
(possibly absent) `hashedPhoneNumber` string field matters. -/
structure HashBody where
  hashedPhoneNumber : Option String
  deriving Repr

/-- The predicate `hasValidPhoneNumberHash(requestBody)`:
`requestBody.hashedPhoneNumber && isByte32(requestBody.hashedPhoneNumber)`,
with JS truthiness on the field (absent or empty string is falsy). -/
def hasValidPhoneNumberHash (body : HashBody) : Bool :=
  match body.hashedPhoneNumber with
  | none => false
  | some s => ¬ s.data.isEmpty && isByte32 s

/-- The predicate `phoneNumberHashIsValidIfExists(requestBody)`:
`!requestBody.hashedPhoneNumber || isByte32(requestBody.hashedPhoneNumber)`. -/
def phoneNumberHashIsValidIfExists (body : HashBody) : Bool :=
  match body.hashedPhoneNumber with
  | none => true
  | some s => s.data.isEmpty || isByte32 s

end InputValidation

namespace AttestationSubsidy

lemma uint256_mod_pos : 0 < UINT256_MOD := by
  unfold UINT256_MOD; positivity

/-- SafeMath multiplication succeeds exactly on non-overflowing products,
returning the mathematical product. -/
lemma safeMul_ok (a b : Nat) (h : a * b < UINT256_MOD) :
    safeMul a b = .ok (a * b) := by
  unfold safeMul
  by_cases ha : a = 0
  · simp [ha]
  · have hc : (a * b) % UINT256_MOD = a * b := Nat.mod_eq_of_lt h
    simp only [ha, if_false, hc]
    rw [Nat.mul_div_cancel_left b (Nat.pos_of_ne_zero ha)]
    simp

/-- SafeMath multiplication rejects every overflowing product. -/
lemma safeMul_overflow (a b : Nat) (h : UINT256_MOD ≤ a * b) :
    safeMul a b = .error .FeeOverflow := by
  unfold safeMul
  have ha : a ≠ 0 := by
    rintro rfl
    simp only [Nat.zero_mul] at h
    have := uint256_mod_pos
    omega
  have hapos : 0 < a := Nat.pos_of_ne_zero ha
  have hdiv : 1 ≤ a * b / UINT256_MOD :=
    (Nat.one_le_div_iff uint256_mod_pos).mpr h
  have hmodle : a * b % UINT256_MOD + UINT256_MOD ≤ a * b := by
    have := Nat.mod_add_div (a * b) UINT256_MOD
    have hge : UINT256_MOD * 1 ≤ UINT256_MOD * (a * b / UINT256_MOD) :=
      Nat.mul_le_mul_left _ hdiv
    omega
  have hlt : a * b % UINT256_MOD < b * a := by
    have hcomm : b * a = a * b := Nat.mul_comm b a
    have := uint256_mod_pos
    omega
  have hne : a * b % UINT256_MOD / a ≠ b :=
    Nat.ne_of_lt ((Nat.div_lt_iff_lt_mul hapos).mpr hlt)
  simp [ha, hne]

end AttestationSubsidy

namespace Claims

open AttestationSubsidy InputValidation

/-- C5: `calculateTotalFee` returns the per-unit price from the pricing
oracle times `attestationsRequested`; on a non-overflowing product it
returns exactly `unitPrice * requestedUnits`, any overflowing product
fails with `FeeOverflow`, and every successful result equals the
mathematical product (never a wrapped or truncated value). -/
theorem calculateTotalFee_is_checked_product (env : Env) (n : Nat) :
    (env.attestationRequestFee * n < UINT256_MOD →
      calculateTotalFee env n = .ok (env.attestationRequestFee * n)) ∧
    (UINT256_MOD ≤ env.attestationRequestFee * n →
      calculateTotalFee env n = .error .FeeOverflow) ∧
    (∀ f, calculateTotalFee env n = .ok f → f = env.attestationRequestFee * n) := by
  refine ⟨fun h => safeMul_ok _ _ h, fun h => safeMul_overflow _ _ h, fun f hf => ?_⟩
  rcases Nat.lt_or_ge (env.attestationRequestFee * n) UINT256_MOD with h | h
  · rw [calculateTotalFee, safeMul_ok _ _ h] at hf
    exact (Except.ok.injEq _ _).mp hf.symm
  · rw [calculateTotalFee, safeMul_overflow _ _ h] at hf
    exact absurd hf (by simp)

/-- Witness for C5 at a concrete input: fee 2, three units, total 6. -/
theorem calculateTotalFee_is_checked_product_witness :
    calculateTotalFee ⟨2, 0, 0, false, false, false⟩ 3 = .ok 6 :=
  (calculateTotalFee_is_checked_product ⟨2, 0, 0, false, false, false⟩ 3).1
    (by norm_num [UINT256_MOD])

/-- C10: the 32-byte hash check is floor division of the hex-string
length by two, so a 65-character (odd-length) hex value passes
`isByte32`, `hasValidPhoneNumberHash` and
`phoneNumberHashIsValidIfExists`. -/
theorem isByte32_accepts_65_hex_chars :
    ∃ hashedPhoneNumber : String,
      (trimLeading0x hashedPhoneNumber).length = 65 ∧
      isByte32 hashedPhoneNumber = true ∧
      hasValidPhoneNumberHash ⟨some hashedPhoneNumber⟩ = true ∧
      phoneNumberHashIsValidIfExists ⟨some hashedPhoneNumber⟩ = true := by
  refine ⟨"0xaaaaaaaaaaaaaaaaaaaaaaaaaaaaaaaaaaaaaaaaaaaaaaaaaaaaaaaaaaaaaaaaa",
    ?_, ?_, ?_, ?_⟩ <;> decide

end Claims

namespace Claims

open AttestationSubsidy InputValidation

/-- C8 counterexample: the numeric timestamp `0` is older than the
expiry window at `now = 3000000`, yet `hasValidTimestamp` accepts the
body, because a falsy `timestamp` short-circuits the check; so the claim
that every stale numeric timestamp yields `false` is wrong. -/
theorem hasValidTimestamp_stale_zero_accepted :
    hasValidTimestamp ⟨some (.num 0)⟩ 3000000 = true ∧
    (0 : Int) ≤ 3000000 - REQUEST_EXPIRY_WINDOW_MS := by
  constructor <;> decide

/-- C8 (amended): `hasValidTimestamp` accepts every request body with no
timestamp field; a truthy (nonzero) numeric timestamp older than the
fixed expiry window is rejected; and on a numeric timestamp the
predicate holds exactly when the value is zero (falsy) or fresh. -/
theorem hasValidTimestamp_advisory (now n : Int) :
    hasValidTimestamp ⟨none⟩ now = true ∧
    (n ≠ 0 → n ≤ now - REQUEST_EXPIRY_WINDOW_MS →
      hasValidTimestamp ⟨some (.num n)⟩ now = false) ∧
    (hasValidTimestamp ⟨some (.num n)⟩ now = true ↔
      (n = 0 ∨ now - REQUEST_EXPIRY_WINDOW_MS < n)) := by
  refine ⟨rfl, ?_, ?_⟩ <;>
    by_cases hn : n = 0 <;>
      simp_all [hasValidTimestamp, truthy]

/-- Witness for C8 (amended) at a concrete input: timestamp 1 at
`now = 3000000` is stale and rejected. -/
theorem hasValidTimestamp_advisory_witness :
    hasValidTimestamp ⟨some (.num 1)⟩ 3000000 = false :=
  (hasValidTimestamp_advisory 3000000 1).2.1 (by decide) (by decide)

/-- C6: `setMaxSubsidisedAttestations` fails with `Unauthorized` for a
non-owner caller and with `InvalidLimit` for a zero limit, leaving the
stored limit unchanged (a revert returns no new state, so the caller
keeps `st`); an owner call with a positive limit stores the new limit
and emits the `MaxSubsidisedAttestationsSet` notification. -/
theorem setMaxSubsidisedAttestations_spec (st : ContractState)
    (sender : Address) (newLimit : Nat) :
    (sender ≠ st.owner →
      setMaxSubsidisedAttestations st sender newLimit = .error .Unauthorized ∧
      (finalState st (setMaxSubsidisedAttestations st sender newLimit)
        ).maxSubsidisedAttestations = st.maxSubsidisedAttestations) ∧
    (sender = st.owner → newLimit = 0 →
      setMaxSubsidisedAttestations st sender newLimit = .error .InvalidLimit ∧
      (finalState st (setMaxSubsidisedAttestations st sender newLimit)
        ).maxSubsidisedAttestations = st.maxSubsidisedAttestations) ∧
    (sender = st.owner → 0 < newLimit →
      setMaxSubsidisedAttestations st sender newLimit =
        .ok ({ st with maxSubsidisedAttestations := newLimit },
             [Event.MaxSubsidisedAttestationsSet newLimit])) := by
  refine ⟨fun h => ?_, fun h h0 => ?_, fun h hpos => ?_⟩ <;>
    simp_all [setMaxSubsidisedAttestations, finalState]

/-- Witness for C6 at concrete inputs: a non-owner caller gets
`Unauthorized` and the limit stays 7. -/
theorem setMaxSubsidisedAttestations_spec_witness :
    setMaxSubsidisedAttestations ⟨1, 0, 7, false⟩ 2 9 = .error .Unauthorized ∧
    (finalState ⟨1, 0, 7, false⟩ (setMaxSubsidisedAttestations ⟨1, 0, 7, false⟩ 2 9)
      ).maxSubsidisedAttestations = 7 :=
  (setMaxSubsidisedAttestations_spec ⟨1, 0, 7, false⟩ 2 9).1 (by decide)

end Claims

namespace AttestationSubsidy

/-- The storage a caller observes after any `requestAttestationsWithSubsidy`
call is the pre-call storage: every failure reverts, and a success only
clears a lock bit that was already clear when the body ran. -/
lemma request_finalState (st : ContractState) (sender : Address)
    (req : Request) (env : Env) :
    finalState st (requestAttestationsWithSubsidy st sender req env).1 = st := by
  obtain ⟨o, g, m, l⟩ := st
  cases l with
  | true =>
    by_cases h1 : sender = o <;>
      simp [requestAttestationsWithSubsidy, h1, finalState]
  | false =>
    unfold requestAttestationsWithSubsidy
    repeat' split
    all_goals simp [finalState]

/-- When the internal chain returns a total fee, that fee is the one
`calculateTotalFee` computed. -/
lemma internalChain_ok_fee (env : Env) (req : Request) (tr : List Call)
    (fee : Nat) (h : internalChain env req = (tr, .ok fee)) :
    calculateTotalFee env req.attestationsRequested = .ok fee := by
  unfold internalChain at h
  split at h
  · simp_all
  · split at h <;> simp_all
    split at h <;> simp_all
    split at h <;> simp_all

end AttestationSubsidy

namespace Claims

open AttestationSubsidy InputValidation

/-- C9: the entry point carries `onlyOwner`, so any caller other than
the stored owner fails with `Unauthorized` before the request-shape,
limit and reentrancy checks, performs no downstream call (empty call
trace), and leaves the observable storage unchanged. -/
theorem onlyOwner_gates_entry (st : ContractState) (sender : Address)
    (req : Request) (env : Env) (h : sender ≠ st.owner) :
    requestAttestationsWithSubsidy st sender req env =
      (.error .Unauthorized, []) ∧
    finalState st (requestAttestationsWithSubsidy st sender req env).1 = st := by
  refine ⟨?_, request_finalState st sender req env⟩
  simp [requestAttestationsWithSubsidy, h]

/-- Witness for C9 at a concrete input: caller 2 against owner 1. -/
theorem onlyOwner_gates_entry_witness :
    requestAttestationsWithSubsidy ⟨1, 0, 10, false⟩ 2
        ⟨7, 3, 5, [0, 0], [0, 0], [0, 0]⟩ ⟨2, 4, 9, false, false, false⟩ =
      (.error .Unauthorized, []) ∧
    finalState ⟨1, 0, 10, false⟩
        (requestAttestationsWithSubsidy ⟨1, 0, 10, false⟩ 2
          ⟨7, 3, 5, [0, 0], [0, 0], [0, 0]⟩ ⟨2, 4, 9, false, false, false⟩).1 =
      ⟨1, 0, 10, false⟩ :=
  onlyOwner_gates_entry ⟨1, 0, 10, false⟩ 2 ⟨7, 3, 5, [0, 0], [0, 0], [0, 0]⟩
    ⟨2, 4, 9, false, false, false⟩ (by decide)

/-- C3: the limit test is a strict comparison
(`checkWithinLimit` holds iff `requestedUnits < maxSubsidisedAttestations`),
and an owner call that passes the earlier checks but requests at least
`maxSubsidisedAttestations` units (the boundary value included) fails
with `LimitExceeded` with an empty downstream-call trace: no counter
read, no fee computation, no approve, no transfer, no consume. -/
theorem limit_bound_exclusive (st : ContractState) (sender : Address)
    (req : Request) (env : Env) :
    (∀ u, checkWithinLimit st u = true ↔ u < st.maxSubsidisedAttestations) ∧
    (sender = st.owner → st.locked = false →
      req.v.length = 2 → req.r.length = 2 → req.s.length = 2 →
      st.maxSubsidisedAttestations ≤ req.attestationsRequested →
      requestAttestationsWithSubsidy st sender req env =
        (.error .LimitExceeded, [])) := by
  constructor
  · intro u
    simp [checkWithinLimit]
  · intro h1 h2 h3 h4 h5 h6
    simp [requestAttestationsWithSubsidy, h1, h2, h3, h4, h5, checkWithinLimit,
      Nat.not_lt.mpr h6]

/-- Witness for C3 at a concrete input: limit 5, request 5 (the exact
boundary) fails with `LimitExceeded` and an empty trace. -/
theorem limit_bound_exclusive_witness :
    requestAttestationsWithSubsidy ⟨1, 0, 5, false⟩ 1
        ⟨7, 3, 5, [0, 0], [0, 0], [0, 0]⟩ ⟨2, 4, 9, false, false, false⟩ =
      (.error .LimitExceeded, []) :=
  (limit_bound_exclusive ⟨1, 0, 5, false⟩ 1 ⟨7, 3, 5, [0, 0], [0, 0], [0, 0]⟩
    ⟨2, 4, 9, false, false, false⟩).2 rfl rfl rfl rfl rfl (by decide)

end Claims

namespace Claims

open AttestationSubsidy InputValidation

/-- C2 counterexample: with the lock held, an owner call whose
signature arrays are empty (a malformed request) fails with
`ReentrantCall`, not `MalformedRequest` — the `nonReentrant` modifier
runs before the body's shape `require`s. -/
theorem reentrant_malformed_yields_reentrantCall :
    requestAttestationsWithSubsidy ⟨1, 0, 10, true⟩ 1 ⟨7, 3, 5, [], [], []⟩
        ⟨2, 4, 9, false, false, false⟩ = (.error .ReentrantCall, []) ∧
    SubsidyError.ReentrantCall ≠ SubsidyError.MalformedRequest :=
  ⟨rfl, by decide⟩

/-- C2 (amended): preconditions are checked in this order with the
first failure winning: owner check (`Unauthorized`), reentrancy lock
(`ReentrantCall`), exactly two well-formed authorizations
(`MalformedRequest`), unit limit (`LimitExceeded`); in particular a
reentrant owner call with a malformed request fails with
`ReentrantCall`. -/
theorem precondition_check_order (st : ContractState) (sender : Address)
    (req : Request) (env : Env) :
    (sender ≠ st.owner →
      requestAttestationsWithSubsidy st sender req env =
        (.error .Unauthorized, [])) ∧
    (sender = st.owner → st.locked = true →
      requestAttestationsWithSubsidy st sender req env =
        (.error .ReentrantCall, [])) ∧
    (sender = st.owner → st.locked = false →
      ¬ (req.v.length = 2 ∧ req.r.length = 2 ∧ req.s.length = 2) →
      requestAttestationsWithSubsidy st sender req env =
        (.error .MalformedRequest, [])) ∧
    (sender = st.owner → st.locked = false →
      req.v.length = 2 → req.r.length = 2 → req.s.length = 2 →
      checkWithinLimit st req.attestationsRequested = false →
      requestAttestationsWithSubsidy st sender req env =
        (.error .LimitExceeded, [])) := by
  refine ⟨fun h => ?_, fun h hl => ?_, fun h hl hshape => ?_,
    fun h hl hv hr hs hlim => ?_⟩
  · simp [requestAttestationsWithSubsidy, h]
  · simp [requestAttestationsWithSubsidy, h, hl]
  · by_cases hv : req.v.length = 2 <;> by_cases hr : req.r.length = 2 <;>
      by_cases hs : req.s.length = 2 <;>
        simp_all [requestAttestationsWithSubsidy]
  · simp [requestAttestationsWithSubsidy, h, hl, hv, hr, hs, hlim]

/-- Witness for C2 (amended) at a concrete input: an owner call with
well-formed arrays but the lock held fails with `ReentrantCall`. -/
theorem precondition_check_order_witness :
    requestAttestationsWithSubsidy ⟨1, 0, 10, true⟩ 1
        ⟨7, 3, 5, [0, 0], [0, 0], [0, 0]⟩ ⟨2, 4, 9, false, false, false⟩ =
      (.error .ReentrantCall, []) :=
  (precondition_check_order ⟨1, 0, 10, true⟩ 1 ⟨7, 3, 5, [0, 0], [0, 0], [0, 0]⟩
    ⟨2, 4, 9, false, false, false⟩).2.1 rfl rfl

/-- C4 counterexample: a reentrant invocation (lock held) from a sender
other than the owner fails with `Unauthorized`, not `ReentrantCall`,
because `onlyOwner` runs before the reentrancy guard. -/
theorem reentrant_nonowner_yields_unauthorized :
    (requestAttestationsWithSubsidy ⟨1, 0, 10, true⟩ 2
        ⟨7, 3, 5, [0, 0], [0, 0], [0, 0]⟩ ⟨2, 4, 9, false, false, false⟩).1 =
      .error .Unauthorized ∧
    SubsidyError.Unauthorized ≠ SubsidyError.ReentrantCall :=
  ⟨rfl, by decide⟩

/-- C4 (amended): the lock state observed after any orchestration call
equals the lock state before it, on every exit path; a reentrant
invocation never succeeds: from the owner it fails with
`ReentrantCall`, from any other sender it fails with `Unauthorized`. -/
theorem lock_restored_and_reentrancy_blocked (st : ContractState)
    (sender : Address) (req : Request) (env : Env) :
    (finalState st (requestAttestationsWithSubsidy st sender req env).1).locked
      = st.locked ∧
    (st.locked = true → sender = st.owner →
      (requestAttestationsWithSubsidy st sender req env).1 =
        .error .ReentrantCall) ∧
    (st.locked = true → sender ≠ st.owner →
      (requestAttestationsWithSubsidy st sender req env).1 =
        .error .Unauthorized) ∧
    (st.locked = true → ∀ st' evs,
      (requestAttestationsWithSubsidy st sender req env).1 ≠ .ok (st', evs)) := by
  refine ⟨by rw [request_finalState], fun hl h => ?_, fun hl h => ?_,
    fun hl st' evs => ?_⟩
  · simp [requestAttestationsWithSubsidy, h, hl]
  · simp [requestAttestationsWithSubsidy, h]
  · by_cases h : sender = st.owner <;>
      simp [requestAttestationsWithSubsidy, h, hl]

/-- Witness for C4 (amended) at a concrete input: an owner invocation
with the lock held yields `ReentrantCall`. -/
theorem lock_restored_and_reentrancy_blocked_witness :
    (requestAttestationsWithSubsidy ⟨1, 0, 10, true⟩ 1
        ⟨8, 3, 5, [0, 0], [0, 0], [0, 0]⟩ ⟨2, 4, 9, false, false, false⟩).1 =
      .error .ReentrantCall :=
  (lock_restored_and_reentrancy_blocked ⟨1, 0, 10, true⟩ 1
    ⟨8, 3, 5, [0, 0], [0, 0], [0, 0]⟩ ⟨2, 4, 9, false, false, false⟩).2.1 rfl rfl

end Claims

namespace AttestationSubsidy

/-- Every successful orchestration passed the post-condition `require`:
the counter advanced (in uint256 arithmetic) by exactly the requested
amount, and the emitted event carries the computed total fee. -/
lemma request_ok_delta (st : ContractState) (sender : Address)
    (req : Request) (env : Env) (st' : ContractState) (evs : List Event)
    (hok : (requestAttestationsWithSubsidy st sender req env).1 = .ok (st', evs)) :
    (env.requestsBefore + req.attestationsRequested) % UINT256_MOD
      = env.requestsAfter ∧
    ∃ fee, calculateTotalFee env req.attestationsRequested = .ok fee ∧
      evs = [Event.AttestationSubsidised req.beneficiaryMetaWallet fee] := by
  unfold requestAttestationsWithSubsidy at hok
  repeat' split at hok
  any_goals simp_all
  rename_i heq hdelta
  obtain ⟨hst, hevs⟩ := hok
  subst hevs
  exact ⟨_, internalChain_ok_fee env req _ _ heq, rfl⟩

end AttestationSubsidy

namespace Claims

open AttestationSubsidy InputValidation

/-- C1: a successful `requestAttestationsWithSubsidy` call implies the
usage counter advanced by exactly `attestationsRequested` (the
post-condition is uint256 arithmetic; without wrap-around the delta
`requestsAfter - requestsBefore` equals the requested amount), the
success event carrying the computed fee is emitted exactly then; and
when the chain completes every downstream step but the delta check
fails, the call aborts with `InvariantViolation` instead of
returning success. -/
theorem usage_delta_postcondition (st : ContractState) (sender : Address)
    (req : Request) (env : Env) :
    (∀ st' evs,
      (requestAttestationsWithSubsidy st sender req env).1 = .ok (st', evs) →
      (env.requestsBefore + req.attestationsRequested) % UINT256_MOD
        = env.requestsAfter ∧
      ∃ fee, calculateTotalFee env req.attestationsRequested = .ok fee ∧
        evs = [Event.AttestationSubsidised req.beneficiaryMetaWallet fee]) ∧
    (∀ st' evs,
      (requestAttestationsWithSubsidy st sender req env).1 = .ok (st', evs) →
      env.requestsBefore + req.attestationsRequested < UINT256_MOD →
      env.requestsAfter - env.requestsBefore = req.attestationsRequested) ∧
    (sender = st.owner → st.locked = false →
      req.v.length = 2 → req.r.length = 2 → req.s.length = 2 →
      checkWithinLimit st req.attestationsRequested = true →
      ∀ tr fee, internalChain env req = (tr, .ok fee) →
      (env.requestsBefore + req.attestationsRequested) % UINT256_MOD
        ≠ env.requestsAfter →
      (requestAttestationsWithSubsidy st sender req env).1 =
        .error .InvariantViolation) := by
  refine ⟨fun st' evs hok => request_ok_delta st sender req env st' evs hok,
    fun st' evs hok hnowrap => ?_, fun h hl hv hr hs hlim tr fee heq hne => ?_⟩
  · have hdelta := (request_ok_delta st sender req env st' evs hok).1
    rw [Nat.mod_eq_of_lt hnowrap] at hdelta
    omega
  · simp [requestAttestationsWithSubsidy, h, hl, hv, hr, hs, hlim, heq, hne]

/-- Witness for C1 at a concrete input: limit 10, request 5, fee 2 per
unit, counter 4 before and 9 after; the call succeeds, the delta is 5
and the event carries the fee 10. -/
theorem usage_delta_postcondition_witness :
    (4 + 5) % UINT256_MOD = 9 ∧
    ∃ fee, calculateTotalFee ⟨2, 4, 9, false, false, false⟩ 5 = .ok fee ∧
      ([Event.AttestationSubsidised 7 10] : List Event) =
        [Event.AttestationSubsidised 7 fee] :=
  (usage_delta_postcondition ⟨1, 0, 10, false⟩ 1
    ⟨7, 3, 5, [0, 0], [0, 0], [0, 0]⟩ ⟨2, 4, 9, false, false, false⟩).1
    ⟨1, 0, 10, false⟩ [Event.AttestationSubsidised 7 10] rfl

/-- C7: every state reachable from a successful `initialize` — through
successful limit updates and arbitrary orchestration calls — has a
strictly positive `maxSubsidisedAttestations`. -/
theorem maxSubsidisedAttestations_always_positive (st : ContractState)
    (h : Reachable st) : 0 < st.maxSubsidisedAttestations := by
  induction h with
  | init sender reg maxSub st hinit =>
    unfold initContract setMaxSubsidisedAttestations at hinit
    repeat' split at hinit
    all_goals try simp_all
    all_goals (subst hinit; simp_all; omega)
  | setLimit st st' sender newLimit evs hreach hset ih =>
    unfold setMaxSubsidisedAttestations at hset
    repeat' split at hset
    all_goals try simp_all
    all_goals (obtain ⟨h1, h2⟩ := hset; subst h1; simp_all; omega)
  | orchestrate st sender req env hreach ih =>
    rw [request_finalState]
    exact ih

/-- Witness for C7 at a concrete input: the state produced by
initializing with limit 3 is reachable and has a positive limit. -/
theorem maxSubsidisedAttestations_always_positive_witness :
    0 < (⟨5, 9, 3, false⟩ : ContractState).maxSubsidisedAttestations :=
  maxSubsidisedAttestations_always_positive ⟨5, 9, 3, false⟩
    (Reachable.init 5 9 3 ⟨5, 9, 3, false⟩ rfl)

end Claims
